import Mathlib

/-!
# Verification of the People Analytics core against its specification

This file gives a shallow embedding of the evaluation-ingestion and scoring
code of the repository (the notebook `notebooks/analyze_people_data.ipynb`
is the executable source; the scoring engine `calculate_score`, the
structure resolver and the sync orchestrator are only documented in the
repository, so they are modelled from the specification where noted) and
proves or refutes the specification claims about it.

Python floats are modelled by exact rationals (`ℚ`); the arithmetic in all
claims stays at representable boundary values, so no claim depends on
floating-point rounding.
-/

namespace PeopleAnalytics

/-- A parsed JSON value, the shape `json.load` produces.  Python booleans,
numbers, strings, lists and dicts are each a constructor; dicts are
association lists of string keys. -/
inductive Json where
  | null : Json
  | bool : Bool → Json
  | num : ℚ → Json
  | str : String → Json
  | arr : List Json → Json
  | obj : List (String × Json) → Json

/-- The Python exceptions the embedded code can raise. -/
inductive PyErr where
  | typeError : PyErr
  | attributeError : PyErr
  | keyError : PyErr
  deriving DecidableEq

@[simp] theorem except_bind_ok {ε α β : Type} (a : α) (f : α → Except ε β) :
    (Except.ok a >>= f) = f a := rfl

@[simp] theorem except_bind_error {ε α β : Type} (e : ε) (f : α → Except ε β) :
    (Except.error e >>= f : Except ε β) = Except.error e := rfl

@[simp] theorem except_pure {ε α : Type} (a : α) :
    (pure a : Except ε α) = Except.ok a := rfl

/-- Python `k in x` for a string `k`: key membership for dicts, element
equality for lists (a non-string element never equals a string), substring
test for strings, `TypeError` otherwise. -/
def pyIn (k : String) : Json → Except PyErr Bool
  | Json.obj kvs => Except.ok (kvs.any fun kv => kv.1 == k)
  | Json.arr xs => Except.ok (xs.any fun x =>
      match x with
      | Json.str s => s == k
      | _ => false)
  | Json.str s => Except.ok (decide (k.toList <:+: s.toList))
  | _ => Except.error PyErr.typeError

/-- Python `x[k]` for a string key `k`: dict lookup (`KeyError` when the key
is absent), `TypeError` on every non-dict value. -/
def pyGetItem (j : Json) (k : String) : Except PyErr Json :=
  match j with
  | Json.obj kvs =>
    match kvs.find? (fun kv => kv.1 == k) with
    | some kv => Except.ok kv.2
    | none => Except.error PyErr.keyError
  | _ => Except.error PyErr.typeError

/-- Python `x.get(k, default)`: only dicts have `.get`; every other value
raises `AttributeError`. -/
def pyGet (j : Json) (k : String) (dflt : Json) : Except PyErr Json :=
  match j with
  | Json.obj kvs =>
    match kvs.find? (fun kv => kv.1 == k) with
    | some kv => Except.ok kv.2
    | none => Except.ok dflt
  | _ => Except.error PyErr.attributeError

/-- Python truthiness of a JSON value. -/
def pyTruthy : Json → Bool
  | Json.null => false
  | Json.bool b => b
  | Json.num q => q != 0
  | Json.str s => !s.isEmpty
  | Json.arr xs => !xs.isEmpty
  | Json.obj kvs => !kvs.isEmpty

/-- Python iteration: lists yield their elements, strings their characters,
dicts their keys; other values raise `TypeError`. -/
def pyIter : Json → Except PyErr (List Json)
  | Json.arr xs => Except.ok xs
  | Json.str s => Except.ok (s.toList.map fun c => Json.str (String.singleton c))
  | Json.obj kvs => Except.ok (kvs.map fun kv => Json.str kv.1)
  | _ => Except.error PyErr.typeError

/-- Python `len`: defined on lists, strings and dicts, `TypeError` otherwise. -/
def pyLen : Json → Except PyErr ℕ
  | Json.arr xs => Except.ok xs.length
  | Json.str s => Except.ok s.length
  | Json.obj kvs => Except.ok kvs.length
  | _ => Except.error PyErr.typeError

/-- Python `x[1:]`: defined on lists and strings, `TypeError` otherwise. -/
def pySlice1 : Json → Except PyErr Json
  | Json.arr xs => Except.ok (Json.arr (xs.drop 1))
  | Json.str s => Except.ok (Json.str (s.drop 1))
  | _ => Except.error PyErr.typeError

/-- A JSON value used as a number: numbers are themselves, booleans count as
`1`/`0` (as in Python arithmetic), everything else raises `TypeError`. -/
def jsonToNum : Json → Except PyErr ℚ
  | Json.num q => Except.ok q
  | Json.bool b => Except.ok (if b then 1 else 0)
  | _ => Except.error PyErr.typeError

/-- Left-to-right numeric sum of a list of JSON values; fails at the first
non-numeric element, as Python `sum` does. -/
def sumNums : List Json → Except PyErr ℚ
  | [] => Except.ok 0
  | x :: rest => do
    let v ← jsonToNum x
    let s ← sumNums rest
    pure (v + s)

/-- Python `sum(x)` over a JSON value. -/
def pySum (j : Json) : Except PyErr ℚ := do
  sumNums (← pyIter j)

/-- The numeric contents of a JSON value, extracted left to right. -/
def numsOf : List Json → Except PyErr (List ℚ)
  | [] => Except.ok []
  | x :: rest => do
    let v ← jsonToNum x
    let vs ← numsOf rest
    pure (v :: vs)

@[simp] theorem sumNums_map_num (qs : List ℚ) :
    sumNums (qs.map Json.num) = Except.ok qs.sum := by
  induction qs with
  | nil => rfl
  | cons q rest ih => simp [sumNums, jsonToNum, ih]

@[simp] theorem numsOf_map_num (qs : List ℚ) :
    numsOf (qs.map Json.num) = Except.ok qs := by
  induction qs with
  | nil => rfl
  | cons q rest ih => simp [numsOf, jsonToNum, ih]

@[simp] theorem pySum_arr_num (qs : List ℚ) :
    pySum (Json.arr (qs.map Json.num)) = Except.ok qs.sum := by
  simp [pySum, pyIter]

/-! ## Record loader and validator (`load_json_file`, `diagnose_json_file`)

`load_json_file` catches all read/parse exceptions and returns either the
parsed document or an error message; its outcome is modelled as
`Except String Json`.  `diagnose_json_file` walks the document collecting
structural defects; it has no exception handler of its own, so the model
returns `Except PyErr Diagnosis`. -/

/-- The diagnosis status of one input file. -/
inductive Status where
  | ok : Status
  | issues : Status
  | error : Status
  deriving DecidableEq

/-- One structural defect recorded by `diagnose_json_file`.  Constructors
carry the 0-based loop indices that the Python messages render 1-based. -/
inductive Issue where
  | missingData : Issue
  | missingDirecionadores : Issue
  | emptyDirecionadores : Issue
  | missingComportamentos (i : ℕ) : Issue
  | missingAvaliacoes (j i : ℕ) : Issue
  | missingFreqColab (k j : ℕ) : Issue
  | freqColabNotList (k : ℕ) : Issue
  | missingFreqGrupo (k j : ℕ) : Issue
  | freqGrupoNotList (k : ℕ) : Issue
  deriving DecidableEq

/-- The dictionary `diagnose_json_file` returns: `message` is present only
for `status=error`, `data` only when parsing succeeded. -/
structure Diagnosis where
  status : Status
  message : Option String
  issues : List Issue
  data : Option Json

/-- Is a JSON value a Python list? (`isinstance(x, list)`) -/
def isList : Json → Bool
  | Json.arr _ => true
  | _ => false

/-- The checks on one entry of `avaliacoes_grupo` (notebook, inner loop of
`diagnose_json_file`). -/
def checkAval (j k : ℕ) (aval : Json) : Except PyErr (List Issue) := do
  let mut out : List Issue := []
  if !(← pyIn "frequencia_colaborador" aval) then
    out := out ++ [Issue.missingFreqColab k j]
  else if !(isList (← pyGet aval "frequencia_colaborador" Json.null)) then
    out := out ++ [Issue.freqColabNotList k]
  if !(← pyIn "frequencia_grupo" aval) then
    out := out ++ [Issue.missingFreqGrupo k j]
  else if !(isList (← pyGet aval "frequencia_grupo" Json.null)) then
    out := out ++ [Issue.freqGrupoNotList k]
  return out

/-- The checks on one `comportamento` (notebook, middle loop of
`diagnose_json_file`); `continue` after a missing `avaliacoes_grupo` skips
the rest of this behaviour only. -/
def checkComp (i j : ℕ) (comp : Json) : Except PyErr (List Issue) := do
  if !(← pyIn "avaliacoes_grupo" comp) then
    return [Issue.missingAvaliacoes j i]
  let avals ← pyIter (← pyGet comp "avaliacoes_grupo" (Json.arr []))
  let mut out : List Issue := []
  for ka in avals.enum do
    out := out ++ (← checkAval j ka.1 ka.2)
  return out

/-- The checks on one `direcionador` (notebook, outer loop of
`diagnose_json_file`). -/
def checkDir (i : ℕ) (dir : Json) : Except PyErr (List Issue) := do
  if !(← pyIn "comportamentos" dir) then
    return [Issue.missingComportamentos i]
  let comps ← pyIter (← pyGet dir "comportamentos" (Json.arr []))
  let mut out : List Issue := []
  for jc in comps.enum do
    out := out ++ (← checkComp i jc.1 jc.2)
  return out

/-- The issue collection of `diagnose_json_file` on a parsed document. -/
def collectIssues (data : Json) : Except PyErr (List Issue) := do
  if !(← pyIn "data" data) then
    return [Issue.missingData]
  let d ← pyGetItem data "data"
  if !(← pyIn "direcionadores" d) then
    return [Issue.missingDirecionadores]
  let dirs ← pyGetItem d "direcionadores"
  if !(pyTruthy dirs) then
    return [Issue.emptyDirecionadores]
  let items ← pyIter dirs
  let mut out : List Issue := []
  for idir in items.enum do
    out := out ++ (← checkDir idir.1 idir.2)
  return out

/-- `diagnose_json_file`: a load failure yields the `status=error`
dictionary; otherwise the collected issues decide between `ok` and
`issues`.  Exceptions escaping the issue walk are uncaught, hence the
`Except PyErr` result. -/
def diagnose_json_file (loadRes : Except String Json) : Except PyErr Diagnosis :=
  match loadRes with
  | Except.error msg => Except.ok ⟨Status.error, some msg, [], none⟩
  | Except.ok data =>
    match collectIssues data with
    | Except.error e => Except.error e
    | Except.ok issues =>
      Except.ok ⟨if issues.isEmpty then Status.ok else Status.issues, none, issues, some data⟩

/-! ## Path-to-identity resolution (`extract_person_year`) -/

/-- `extract_person_year` from the notebook: the person is the
third-from-last path segment, the year the second-from-last; Python's
negative index check maps to the signed comparison below.  Paths are
modelled as their component lists. -/
def extract_person_year (parts : List String) : String × String :=
  let person_idx : ℤ := (parts.length : ℤ) - 3
  let year_idx : ℤ := (parts.length : ℤ) - 2
  if 0 ≤ person_idx ∧ 0 ≤ year_idx then
    (parts.getD person_idx.toNat "", parts.getD year_idx.toNat "")
  else
    ("Unknown", "Unknown")

/-! ## Scoring weights and scores -/

/-- The legacy weights `[0, 2.5, 4, 3, 2, 1]` (`position_values` in the
notebook's `convert_evaluation_to_dataframe_corrected`; also the
"pesos tradicionais" of the scoring document). -/
def position_values : List ℚ := [0, 2.5, 4, 3, 2, 1]

/-- The NPS-model weights `[0, 2, 10, 5, -5, -10]` from the scoring
document and spec §4.4. -/
def NPS_WEIGHTS : List ℚ := [0, 2, 10, 5, -5, -10]

/-- `sum(v * ws[i] for i, v in enumerate(freq))`: the positional weighted
numerator shared by both scoring models.  Every caller first checks
`len(freq) == 6`, so pairing positionally with the 6-entry weight table is
exactly the source's indexed sum. -/
def weightedNum (ws : List ℚ) (freq : List ℚ) : ℚ :=
  (List.zipWith (fun v w => v * w) freq ws).sum

/-- `sum(i * v for i, v in enumerate(freq))`: the index-weighted numerator
of the notebook's original (uncorrected) `convert_evaluation_to_dataframe`. -/
def indexWeightedNum (freq : List ℚ) : ℚ :=
  (freq.enum.map fun iv => (iv.1 : ℚ) * iv.2).sum

/-- The corrected legacy score of the notebook (lines computing
`score_colab`): weights `position_values` applied positionally, divided by
the sum of positions 1–5 (`total_colab`, which excludes the
"não informado" slot). -/
def corrected_score (freq : List ℚ) : ℚ :=
  weightedNum position_values freq / (freq.drop 1).sum

/-- The scoring-engine failures of spec §7. -/
inductive ScoreError where
  | invalidVector : ScoreError
  | zeroSumVector : ScoreError
  deriving DecidableEq

/-- Modelled from the spec: the body of `calculate_score` in
`peopleanalytics/constants.py` is not under `src/` — only its signature and
docstring survive in the NPS scoring document — so the function follows
spec §4.4: length ≠ 6 fails with `InvalidVectorError`; the selected weight
table is applied positionally and divided by the sum of positions 1–5
(a zero sum is the `ZeroSumVectorError` of the spec's taxonomy);
normalization, for the NPS model only, remaps the raw score by
`(score + 10) * 5`. -/
def calculate_score (frequencies : List ℚ) (use_nps_model : Bool)
    (normalize : Bool) : Except ScoreError ℚ :=
  if frequencies.length ≠ 6 then Except.error ScoreError.invalidVector
  else
    let weights := if use_nps_model then NPS_WEIGHTS else position_values
    let total := (frequencies.drop 1).sum
    if total = 0 then Except.error ScoreError.zeroSumVector
    else
      let raw := weightedNum weights frequencies / total
      Except.ok (if use_nps_model && normalize then (raw + 10) * 5 else raw)

/-- The qualitative score categories. -/
inductive Category where
  | excellent : Category
  | good : Category
  | regular : Category
  | below : Category
  | unsatisfactory : Category
  deriving DecidableEq

/-- Modelled from the spec: `get_score_category` from
`peopleanalytics/constants.py` is not under `src/` — only its docstring and
interpretation table survive in the NPS scoring document — so the mapping
follows spec §4.4: an ordered threshold table, boundaries inclusive on the
lower edge, raw cut points `7.5 / 2.5 / -2.5 / -7.5` and normalized cut
points `87.5 / 62.5 / 37.5 / 12.5`. -/
def get_score_category (score : ℚ) (normalized : Bool) : Category :=
  if normalized then
    if 87.5 ≤ score then Category.excellent
    else if 62.5 ≤ score then Category.good
    else if 37.5 ≤ score then Category.regular
    else if 12.5 ≤ score then Category.below
    else Category.unsatisfactory
  else
    if 7.5 ≤ score then Category.excellent
    else if 2.5 ≤ score then Category.good
    else if -2.5 ≤ score then Category.regular
    else if -7.5 ≤ score then Category.below
    else Category.unsatisfactory

/-! ## Evaluation-to-row conversion (the notebook's two converters)

`convert_evaluation_to_dataframe_corrected` is wrapped in
`try/except Exception`, with rows appended before any later failure — so an
exception yields the rows accumulated so far.  The loop runners below
therefore return the accumulated rows together with the error (if any)
that aborted the walk. -/

/-- Round-half-to-even at one decimal, the exact-rational counterpart of
Python's `round(x, 1)` (float representation error aside). -/
def roundHalfEven (q : ℚ) : ℤ :=
  if q - ⌊q⌋ < 1 / 2 then ⌊q⌋
  else if 1 / 2 < q - ⌊q⌋ then ⌊q⌋ + 1
  else if ⌊q⌋ % 2 = 0 then ⌊q⌋ else ⌊q⌋ + 1

/-- `round(x, 1)` on exact rationals. -/
def pyRound1 (q : ℚ) : ℚ := (roundHalfEven (10 * q) : ℚ) / 10

/-- One row of the corrected converter's dataframe. -/
structure Row where
  pessoa : String
  ano : String
  direcionador : Json
  comportamento : Json
  avaliador : Json
  score_colaborador : ℚ
  score_grupo : ℚ
  diferenca : ℚ
  freq_colab_raw : Json
  freq_grupo_raw : Json
  freq_colab_pct : List ℚ
  freq_grupo_pct : List ℚ

/-- One row of the original converter's dataframe. -/
structure RowBasic where
  pessoa : String
  ano : String
  direcionador : Json
  comportamento : Json
  avaliador : Json
  score_colaborador : ℚ
  score_grupo : ℚ
  diferenca : ℚ

/-- The body of the corrected converter's innermost loop, for one entry of
`avaliacoes_grupo`: the checks short-circuit exactly as the Python `or`
does, and a row is built only after every check passes.  The weight table
is a parameter so that the same loop body states the NPS variant; the
notebook instantiates it with `position_values`.  (`numsOf` extracts the
numeric elements; it cannot fail once `pySum` has succeeded.) -/
def processAvalC (ws : List ℚ) (person year : String) (dir comp aval : Json) :
    Except PyErr (Option Row) := do
  let fc ← pyGet aval "frequencia_colaborador" (Json.arr [])
  let fg ← pyGet aval "frequencia_grupo" (Json.arr [])
  if (← pyLen fc) ≠ 6 then return none
  if (← pyLen fg) ≠ 6 then return none
  let sumC ← pySum fc
  if sumC = 0 then return none
  let sumG ← pySum fg
  if sumG = 0 then return none
  let totalC ← pySum (← pySlice1 fc)
  let totalG ← pySum (← pySlice1 fg)
  if totalC = 0 ∨ totalG = 0 then return none
  let fcQ ← numsOf (← pyIter fc)
  let fgQ ← numsOf (← pyIter fg)
  let scoreC := weightedNum ws fcQ / totalC
  let scoreG := weightedNum ws fgQ / totalG
  let distC := fcQ.map fun v => if 0 < sumC then pyRound1 (100 * v / sumC) else 0
  let distG := fgQ.map fun v => if 0 < sumG then pyRound1 (100 * v / sumG) else 0
  let dirName ← pyGet dir "direcionador" (Json.str "")
  let compName ← pyGet comp "comportamento" (Json.str "")
  let avName ← pyGet aval "avaliador" (Json.str "")
  return some ⟨person, year, dirName, compName, avName, scoreC, scoreG,
    scoreC - scoreG, fc, fg, distC, distG⟩

/-- The body of the original converter's innermost loop. -/
def processAvalO (person year : String) (dir comp aval : Json) :
    Except PyErr (Option RowBasic) := do
  let fc ← pyGet aval "frequencia_colaborador" (Json.arr [])
  let fg ← pyGet aval "frequencia_grupo" (Json.arr [])
  if !(pyTruthy fc) then return none
  if !(pyTruthy fg) then return none
  let sumC ← pySum fc
  if sumC = 0 then return none
  let sumG ← pySum fg
  if sumG = 0 then return none
  let fcQ ← numsOf (← pyIter fc)
  let fgQ ← numsOf (← pyIter fg)
  let scoreC := indexWeightedNum fcQ / sumC
  let scoreG := indexWeightedNum fgQ / sumG
  let dirName ← pyGet dir "direcionador" (Json.str "")
  let compName ← pyGet comp "comportamento" (Json.str "")
  let avName ← pyGet aval "avaliador" (Json.str "")
  return some ⟨person, year, dirName, compName, avName, scoreC, scoreG,
    scoreC - scoreG⟩

/-- Runs an innermost loop whose body either skips (`none`), appends one
row, or raises; the raised error aborts the loop but the earlier rows are
kept (they were already appended in the Python `rows` list). -/
def runAvals {α : Type} (step : Json → Except PyErr (Option α)) :
    List Json → List α × Option PyErr
  | [] => ([], none)
  | a :: rest =>
    match step a with
    | Except.error e => ([], some e)
    | Except.ok none => runAvals step rest
    | Except.ok (some r) =>
      let res := runAvals step rest
      (r :: res.1, res.2)

/-- Runs an outer loop whose body returns accumulated rows and possibly an
error; the error aborts the remaining iterations. -/
def runLoop {α : Type} (step : Json → List α × Option PyErr) :
    List Json → List α × Option PyErr
  | [] => ([], none)
  | c :: rest =>
    let res := step c
    match res.2 with
    | some e => (res.1, some e)
    | none =>
      let res2 := runLoop step rest
      (res.1 ++ res2.1, res2.2)

/-- One `comportamento` of the corrected converter:
`for avaliacao in comportamento.get("avaliacoes_grupo", [])`. -/
def processCompC (ws : List ℚ) (person year : String) (dir comp : Json) :
    List Row × Option PyErr :=
  match (do pyIter (← pyGet comp "avaliacoes_grupo" (Json.arr []))) with
  | Except.error e => ([], some e)
  | Except.ok avals => runAvals (processAvalC ws person year dir comp) avals

/-- One `direcionador` of the corrected converter:
`for comportamento in direcionador.get("comportamentos", [])`. -/
def processDirC (ws : List ℚ) (person year : String) (dir : Json) :
    List Row × Option PyErr :=
  match (do pyIter (← pyGet dir "comportamentos" (Json.arr []))) with
  | Except.error e => ([], some e)
  | Except.ok comps => runLoop (processCompC ws person year dir) comps

/-- The corrected converter with its weight table as a parameter: the walk
over `eval_data["data"]["direcionadores"]` inside `try/except`, returning
the rows accumulated when an exception is swallowed. -/
def convertModel (ws : List ℚ) (evalData : Json) (person year : String) :
    List Row :=
  match (do pyIter (← pyGetItem (← pyGetItem evalData "data") "direcionadores")) with
  | Except.error _ => []
  | Except.ok dirs => (runLoop (processDirC ws person year) dirs).1

/-- `convert_evaluation_to_dataframe_corrected` from the notebook. -/
def convert_evaluation_to_dataframe_corrected (evalData : Json)
    (person year : String) : List Row :=
  convertModel position_values evalData person year

/-- One `comportamento` of the original converter. -/
def processCompO (person year : String) (dir comp : Json) :
    List RowBasic × Option PyErr :=
  match (do pyIter (← pyGet comp "avaliacoes_grupo" (Json.arr []))) with
  | Except.error e => ([], some e)
  | Except.ok avals => runAvals (processAvalO person year dir comp) avals

/-- One `direcionador` of the original converter. -/
def processDirO (person year : String) (dir : Json) :
    List RowBasic × Option PyErr :=
  match (do pyIter (← pyGet dir "comportamentos" (Json.arr []))) with
  | Except.error e => ([], some e)
  | Except.ok comps => runLoop (processCompO person year dir) comps

/-- `convert_evaluation_to_dataframe` from the notebook (the original,
uncorrected converter). -/
def convert_evaluation_to_dataframe (evalData : Json) (person year : String) :
    List RowBasic :=
  match (do pyIter (← pyGetItem (← pyGetItem evalData "data") "direcionadores")) with
  | Except.error _ => []
  | Except.ok dirs => (runLoop (processDirO person year) dirs).1

/-! ## Consolidated loading (`load_all_evaluations*`)

`scan_directory` is a glob; its output is modelled as the input file list,
each file carrying its path components and its `load_json_file` outcome. -/

/-- One discovered `resultado.json`: its path components and the result of
`load_json_file` on it. -/
structure SourceFile where
  path : List String
  content : Except String Json

/-- The shared loop of `load_all_evaluations` and
`load_all_evaluations_corrected`: diagnose each file, skip it entirely when
the status is `error` or `issues`, otherwise convert it under the identity
extracted from its path and concatenate.  (The `data` field is always
present on a non-`error` diagnosis.) -/
def loadAllWith {α : Type} (convert : Json → String → String → List α) :
    List SourceFile → Except PyErr (List α)
  | [] => Except.ok []
  | f :: rest => do
    let diag ← diagnose_json_file f.content
    if diag.status = Status.error ∨ diag.status = Status.issues then
      loadAllWith convert rest
    else
      let py := extract_person_year f.path
      let rows := convert (diag.data.getD Json.null) py.1 py.2
      let others ← loadAllWith convert rest
      return rows ++ others

/-- `load_all_evaluations` from the notebook. -/
def load_all_evaluations (files : List SourceFile) :
    Except PyErr (List RowBasic) :=
  loadAllWith convert_evaluation_to_dataframe files

/-- `load_all_evaluations_corrected` from the notebook. -/
def load_all_evaluations_corrected (files : List SourceFile) :
    Except PyErr (List Row) :=
  loadAllWith convert_evaluation_to_dataframe_corrected files

/-! ## Structure resolver (spec §4.1)

The repository's `structure_adapter.py` is referenced only from its README;
the resolver below is modelled from the specification. -/

/-- The 4-digit year pattern of spec §4.1. -/
def isYearPattern (s : String) : Bool :=
  s.length == 4 && s.toList.all Char.isDigit

/-- One `resultado.json` two levels below the root: its first and second
path segments and its content. -/
structure TreeFile where
  seg1 : String
  seg2 : String
  content : Json

/-- Canonical is `<year>/<person>`, inverted is `<person>/<year>`. -/
inductive Orientation where
  | canonical : Orientation
  | inverted : Orientation
  deriving DecidableEq

/-- One resolved (person, year) unit. -/
structure PersonYearRecord where
  person : String
  year : String
  content : Json

/-- Modelled from the spec: the Structure Resolver's detection algorithm
(spec §4.1) — probe the first two path segments below root; a 4-digit year
at depth 1 implies canonical `<year>/<person>` orientation, a year at
depth 2 implies inverted `<person>/<year>`; otherwise detection fails
(`StructureAmbiguousError` absent an explicit override). -/
def detectOrientation : List TreeFile → Option Orientation
  | [] => none
  | f :: _ =>
    if isYearPattern f.seg1 then some Orientation.canonical
    else if isYearPattern f.seg2 then some Orientation.inverted
    else none

/-- Modelled from the spec: resolution of a tree into `PersonYearRecord`s —
a uniform (person, year, content) enumeration regardless of the physical
orientation detected. -/
def resolveTree (files : List TreeFile) : Option (List PersonYearRecord) :=
  (detectOrientation files).map fun o =>
    files.map fun f =>
      match o with
      | Orientation.canonical => ⟨f.seg2, f.seg1, f.content⟩
      | Orientation.inverted => ⟨f.seg1, f.seg2, f.content⟩

/-- The canonical `<year>/<person>/resultado.json` tree of a record set. -/
def canonicalTree (rs : List PersonYearRecord) : List TreeFile :=
  rs.map fun r => ⟨r.year, r.person, r.content⟩

/-- The inverted `<person>/<year>/resultado.json` tree of a record set. -/
def invertedTree (rs : List PersonYearRecord) : List TreeFile :=
  rs.map fun r => ⟨r.person, r.year, r.content⟩

/-! ## Sync orchestrator (spec §4.6)

`sync.py` is not under `src/`; the incremental skip logic below is
modelled from the specification. -/

/-- A sync report: counts of processed and unchanged units and the
per-unit score results in discovery order. -/
structure SyncReport (Res : Type) where
  processed : ℕ
  unchanged : ℕ
  results : List (String × Res)

/-- Modelled from the spec: `SyncState` maps each discovered source path to
a content fingerprint and a processing outcome (spec §3). -/
abbrev SyncState (Fp Res : Type) : Type := List (String × Fp × Res)

/-- Lookup of a path's stored fingerprint and outcome. -/
def stLookup {Fp Res : Type} (st : SyncState Fp Res) (p : String) :
    Option (Fp × Res) :=
  (st.find? fun e => e.1 == p).map fun e => e.2

/-- Modelled from the spec: the sync loop of spec §4.6 over discovered
units — if `force` is unset and the unit's fingerprint matches `SyncState`,
the unit is skipped (counted as `unchanged`, its stored result reused);
otherwise it is processed (`proc`) and `SyncState` is updated.
`fp` is the fingerprint function (content hash). -/
def syncRun {Content Fp Res : Type} [DecidableEq Fp] (fp : Content → Fp)
    (proc : Content → Res) (force : Bool) :
    List (String × Content) → SyncState Fp Res → SyncReport Res × SyncState Fp Res
  | [], st => (⟨0, 0, []⟩, st)
  | (p, c) :: rest, st =>
    match stLookup st p with
    | some fr =>
      if !force && fr.1 = fp c then
        let res := syncRun fp proc force rest st
        (⟨res.1.processed, res.1.unchanged + 1, (p, fr.2) :: res.1.results⟩, res.2)
      else
        let r := proc c
        let res := syncRun fp proc force rest ((p, fp c, r) :: st)
        (⟨res.1.processed + 1, res.1.unchanged, (p, r) :: res.1.results⟩, res.2)
    | none =>
      let r := proc c
      let res := syncRun fp proc force rest ((p, fp c, r) :: st)
      (⟨res.1.processed + 1, res.1.unchanged, (p, r) :: res.1.results⟩, res.2)

/-! ## Claims -/

/-- A frequency vector of non-negative integers, as the rational list the
scoring functions consume. -/
def castList (v : List ℕ) : List ℚ := v.map fun n : ℕ => (n : ℚ)

@[simp] theorem castList_nil : castList [] = [] := rfl

@[simp] theorem castList_cons (n : ℕ) (t : List ℕ) :
    castList (n :: t) = (n : ℚ) :: castList t := rfl

@[simp] theorem castList_length (v : List ℕ) : (castList v).length = v.length := by
  simp [castList]

/-- Every list of length 6 is a six-element literal. -/
theorem exists_six {α : Type} (l : List α) (h : l.length = 6) :
    ∃ a b c d e f, l = [a, b, c, d, e, f] := by
  match l, h with
  | [a, b, c, d, e, f], _ => exact ⟨a, b, c, d, e, f, rfl⟩

/-- C1: for every frequency vector whose length is not 6, the scoring
operation `score(v, model, normalize)` fails with `InvalidVectorError`,
under the legacy model and under the NPS model alike. -/
theorem c1_invalid_length_fails (v : List ℚ) (m n : Bool) (h : v.length ≠ 6) :
    calculate_score v m n = Except.error ScoreError.invalidVector := by
  simp [calculate_score, h]

theorem c1_invalid_length_fails_witness :
    calculate_score [3] true false = Except.error ScoreError.invalidVector ∧
    calculate_score [3] false true = Except.error ScoreError.invalidVector :=
  ⟨c1_invalid_length_fails [3] true false (by decide),
   c1_invalid_length_fails [3] false true (by decide)⟩

/-- C2 counterexample: the validator is not total on arbitrary input files.
The file containing the valid JSON document `3` parses successfully, and
`diagnose_json_file` then raises `TypeError` at `'data' not in data`
instead of returning a diagnostic object. -/
theorem c2_counterexample :
    diagnose_json_file (Except.ok (Json.num 3)) = Except.error PyErr.typeError := rfl

/-- C2 (amended): a file that fails JSON parsing or file I/O yields
`status=error` with a message, and whenever the validator does return a
diagnostic for a parsed document, at least one structural defect yields
`status=issues` with an itemized issue list and zero defects yield
`status=ok`; but the validator is not total — on a parsed document whose
top level (or a probed nested position) is not a JSON object of the
expected kind it raises `TypeError`/`AttributeError` instead of returning. -/
theorem c2_diagnose_statuses :
    (∀ msg : String, diagnose_json_file (Except.error msg) =
      Except.ok ⟨Status.error, some msg, [], none⟩) ∧
    (∀ (j : Json) (d : Diagnosis), diagnose_json_file (Except.ok j) = Except.ok d →
      ((d.status = Status.issues ↔ d.issues ≠ []) ∧
       (d.status = Status.ok ↔ d.issues = []))) := by
  constructor
  · intro msg; rfl
  · intro j d h
    cases hc : collectIssues j with
    | error e => simp [diagnose_json_file, hc] at h
    | ok issues =>
      simp only [diagnose_json_file, hc] at h
      injection h with h
      subst h
      cases issues with
      | nil => simp
      | cons a l => simp

theorem c2_diagnose_statuses_witness :
    diagnose_json_file (Except.error "x") =
      Except.ok ⟨Status.error, some "x", [], none⟩ ∧
    (Status.issues = Status.issues ↔ ([Issue.missingData] : List Issue) ≠ []) :=
  ⟨c2_diagnose_statuses.1 "x",
   (c2_diagnose_statuses.2 (Json.obj [])
      ⟨Status.issues, none, [Issue.missingData], some (Json.obj [])⟩ rfl).1⟩

/-- C9: a file whose diagnosis status is `issues` or `error` contributes
nothing to the consolidated result — both loaders skip the whole file, even
if some of its behaviour evaluations are individually well formed. -/
theorem c9_bad_file_contributes_nothing (f : SourceFile) (fs : List SourceFile)
    (d : Diagnosis) (hd : diagnose_json_file f.content = Except.ok d)
    (hbad : d.status = Status.issues ∨ d.status = Status.error) :
    load_all_evaluations (f :: fs) = load_all_evaluations fs ∧
    load_all_evaluations_corrected (f :: fs) = load_all_evaluations_corrected fs := by
  have hcond : d.status = Status.error ∨ d.status = Status.issues := hbad.symm
  constructor
  · show loadAllWith convert_evaluation_to_dataframe (f :: fs) = _
    rw [loadAllWith, hd, except_bind_ok, if_pos hcond]
    rfl
  · show loadAllWith convert_evaluation_to_dataframe_corrected (f :: fs) = _
    rw [loadAllWith, hd, except_bind_ok, if_pos hcond]
    rfl

theorem c9_bad_file_contributes_nothing_witness :
    load_all_evaluations [⟨[], Except.ok (Json.obj [])⟩] = load_all_evaluations [] ∧
    load_all_evaluations_corrected [⟨[], Except.ok (Json.obj [])⟩] =
      load_all_evaluations_corrected [] :=
  c9_bad_file_contributes_nothing ⟨[], Except.ok (Json.obj [])⟩ []
    ⟨Status.issues, none, [Issue.missingData], some (Json.obj [])⟩ rfl (Or.inl rfl)

/-- C10: `extract_person_year` is total and never fails — a path with at
least 3 components resolves to its third-from-last and second-from-last
segments (no year-pattern validation), and any shorter path resolves to
the sentinel `("Unknown", "Unknown")` rather than raising. -/
theorem c10_extract_person_year_total (parts : List String) :
    (3 ≤ parts.length →
      extract_person_year parts =
        (parts.getD (parts.length - 3) "", parts.getD (parts.length - 2) "")) ∧
    (parts.length < 3 →
      extract_person_year parts = ("Unknown", "Unknown")) := by
  constructor
  · intro h
    simp only [extract_person_year]
    rw [if_pos ⟨by omega, by omega⟩]
    congr 2 <;> omega
  · intro h
    simp only [extract_person_year]
    rw [if_neg]
    intro hc
    omega

theorem c10_extract_person_year_total_witness :
    extract_person_year ["data", "alice", "2023", "resultado.json"] =
      (["data", "alice", "2023", "resultado.json"].getD 1 "",
       ["data", "alice", "2023", "resultado.json"].getD 2 "") ∧
    extract_person_year ["resultado.json"] = ("Unknown", "Unknown") :=
  ⟨(c10_extract_person_year_total ["data", "alice", "2023", "resultado.json"]).1
      (by decide),
   (c10_extract_person_year_total ["resultado.json"]).2 (by decide)⟩

/-- C3: under the NPS model without normalization, the unanimously positive
vector `[0,0,5,0,0,0]` scores exactly `10.0` (category Excellent), the
unanimously negative vector `[0,0,0,0,0,5]` scores exactly `-10.0`
(category Unsatisfactory), and every NPS raw score of a frequency vector of
non-negative integers lies in `[-10, 10]`. -/
theorem c3_nps_extremes_and_range :
    calculate_score [0, 0, 5, 0, 0, 0] true false = Except.ok 10 ∧
    get_score_category 10 false = Category.excellent ∧
    calculate_score [0, 0, 0, 0, 0, 5] true false = Except.ok (-10) ∧
    get_score_category (-10) false = Category.unsatisfactory ∧
    (∀ (v : List ℕ) (s : ℚ),
      calculate_score (castList v) true false = Except.ok s →
      -10 ≤ s ∧ s ≤ 10) := by
  refine ⟨by norm_num [calculate_score, weightedNum, NPS_WEIGHTS],
          by norm_num [get_score_category],
          by norm_num [calculate_score, weightedNum, NPS_WEIGHTS],
          by norm_num [get_score_category], ?_⟩
  intro v s h
  by_cases hlen : v.length = 6
  · obtain ⟨a, b, c, d, e, f, rfl⟩ := exists_six v hlen
    simp only [calculate_score, castList_cons, castList_nil, List.length_cons,
      List.length_nil, List.drop_succ_cons, List.drop_zero, List.sum_cons,
      List.sum_nil, weightedNum, NPS_WEIGHTS, List.zipWith] at h
    norm_num at h
    by_cases ht : (b : ℚ) + ((c : ℚ) + ((d : ℚ) + ((e : ℚ) + (f : ℚ)))) = 0
    · rw [if_pos ht] at h
      cases h
    · rw [if_neg ht] at h
      injection h with h
      have hb : (0 : ℚ) ≤ (b : ℚ) := Nat.cast_nonneg b
      have hc : (0 : ℚ) ≤ (c : ℚ) := Nat.cast_nonneg c
      have hd : (0 : ℚ) ≤ (d : ℚ) := Nat.cast_nonneg d
      have he : (0 : ℚ) ≤ (e : ℚ) := Nat.cast_nonneg e
      have hf : (0 : ℚ) ≤ (f : ℚ) := Nat.cast_nonneg f
      have hpos : (0 : ℚ) < (b : ℚ) + ((c : ℚ) + ((d : ℚ) + ((e : ℚ) + (f : ℚ)))) := by
        rcases lt_or_eq_of_le (by linarith :
          (0 : ℚ) ≤ (b : ℚ) + ((c : ℚ) + ((d : ℚ) + ((e : ℚ) + (f : ℚ))))) with hlt | heq
        · exact hlt
        · exact absurd heq.symm ht
      subst h
      constructor
      · rw [le_div_iff₀ hpos]
        nlinarith
      · rw [div_le_iff₀ hpos]
        nlinarith
  · have hlen6 : (castList v).length ≠ 6 := by
      rw [castList_length]
      exact hlen
    simp only [calculate_score] at h
    rw [if_pos hlen6] at h
    cases h

theorem c3_nps_extremes_and_range_witness :
    -10 ≤ (2 / 5 : ℚ) ∧ (2 / 5 : ℚ) ≤ 10 :=
  c3_nps_extremes_and_range.2.2.2.2 [0, 1, 1, 1, 1, 1] (2 / 5)
    (by norm_num [calculate_score, weightedNum, NPS_WEIGHTS])

@[simp] theorem weightedNum_cons (w q : ℚ) (ws T : List ℚ) :
    weightedNum (w :: ws) (q :: T) = q * w + weightedNum ws T := rfl

/-- C4: for every frequency vector of exactly 6 non-negative integers whose
positions 1–5 have a positive sum, the legacy raw score — weights
`[0, 2.5, 4, 3, 2, 1]` applied positionally and divided by the sum of
positions 1–5, as the notebook's corrected converter computes it and as the
scoring engine's legacy model returns it — lies in `[1, 4]`. -/
theorem c4_legacy_score_range (v : List ℕ) (hlen : v.length = 6)
    (hpos : 0 < (v.drop 1).sum) :
    (1 ≤ corrected_score (castList v) ∧ corrected_score (castList v) ≤ 4) ∧
    calculate_score (castList v) false false =
      Except.ok (corrected_score (castList v)) := by
  obtain ⟨a, b, c, d, e, f, rfl⟩ := exists_six v hlen
  have hb : (0 : ℚ) ≤ (b : ℚ) := Nat.cast_nonneg b
  have hc : (0 : ℚ) ≤ (c : ℚ) := Nat.cast_nonneg c
  have hd : (0 : ℚ) ≤ (d : ℚ) := Nat.cast_nonneg d
  have he : (0 : ℚ) ≤ (e : ℚ) := Nat.cast_nonneg e
  have hf : (0 : ℚ) ≤ (f : ℚ) := Nat.cast_nonneg f
  have hq : (0 : ℚ) < (b : ℚ) + ((c : ℚ) + ((d : ℚ) + ((e : ℚ) + (f : ℚ)))) := by
    have h1 : 0 < b + (c + (d + (e + f))) := by simpa using hpos
    exact_mod_cast h1
  have hscore : corrected_score (castList [a, b, c, d, e, f]) =
      ((b : ℚ) * 2.5 + ((c : ℚ) * 4 + ((d : ℚ) * 3 + ((e : ℚ) * 2 + (f : ℚ) * 1)))) /
        ((b : ℚ) + ((c : ℚ) + ((d : ℚ) + ((e : ℚ) + (f : ℚ))))) := by
    simp [corrected_score, weightedNum, position_values]
  refine ⟨⟨?_, ?_⟩, ?_⟩
  · rw [hscore, le_div_iff₀ hq]
    nlinarith
  · rw [hscore, div_le_iff₀ hq]
    nlinarith
  · simp only [calculate_score, castList_cons, castList_nil, List.length_cons,
      List.length_nil, List.drop_succ_cons, List.drop_zero, List.sum_cons,
      List.sum_nil, add_zero, Bool.false_and, if_false, ite_false]
    norm_num
    rw [if_neg (by exact_mod_cast hq.ne')]
    simp [corrected_score, weightedNum, position_values]

theorem c4_legacy_score_range_witness :
    (1 ≤ corrected_score (castList [9, 1, 1, 1, 1, 1]) ∧
     corrected_score (castList [9, 1, 1, 1, 1, 1]) ≤ 4) ∧
    calculate_score (castList [9, 1, 1, 1, 1, 1]) false false =
      Except.ok (corrected_score (castList [9, 1, 1, 1, 1, 1])) :=
  c4_legacy_score_range [9, 1, 1, 1, 1, 1] (by decide) (by decide)

/-- The scoring operation ignores the head entry of a 6-element vector:
both weight tables give position 0 the weight 0 and the denominator sums
positions 1–5 only. -/
theorem calculate_score_head_irrelevant (q q' : ℚ) (T : List ℚ)
    (hT : T.length = 5) (m n : Bool) :
    calculate_score (q :: T) m n = calculate_score (q' :: T) m n := by
  have hlen : ¬((q :: T).length ≠ 6) := by simp [hT]
  have hlen' : ¬((q' :: T).length ≠ 6) := by simp [hT]
  simp only [calculate_score, List.drop_succ_cons, List.drop_zero]
  rw [if_neg hlen, if_neg hlen']
  by_cases ht : T.sum = 0
  · rw [if_pos ht, if_pos ht]
  · rw [if_neg ht, if_neg ht]
    cases m <;> simp [NPS_WEIGHTS, position_values]

/-- C8: for both scoring models and every 6-position frequency vector of
non-negative integers with positive sum over positions 1–5, the score is
independent of position 0 — replacing `v[0]` by any non-negative integer
leaves `score(v, model, normalize)` unchanged. -/
theorem c8_position_zero_irrelevant (v : List ℕ) (hlen : v.length = 6)
    (hpos : 0 < (v.drop 1).sum) (a : ℕ) (m n : Bool) :
    calculate_score (castList (v.set 0 a)) m n = calculate_score (castList v) m n := by
  match v, hlen with
  | x :: t, hlen =>
    show calculate_score ((a : ℚ) :: castList t) m n =
      calculate_score ((x : ℚ) :: castList t) m n
    exact calculate_score_head_irrelevant _ _ (castList t)
      (by simpa using Nat.succ_injective hlen) m n

theorem c8_position_zero_irrelevant_witness :
    calculate_score (castList ([1, 1, 1, 1, 1, 1].set 0 7)) true false =
      calculate_score (castList [1, 1, 1, 1, 1, 1]) true false :=
  c8_position_zero_irrelevant [1, 1, 1, 1, 1, 1] (by decide) (by decide) 7 true false

/-- C6: a tree laid out `<person>/<year>/resultado.json` and a tree laid
out `<year>/<person>/resultado.json` with identical contents resolve to
identical `PersonYearRecord` sets — the (person, year) identity of every
record is the same under both orientations, provided the year segments
match the 4-digit pattern the detector probes and the person segments do
not. -/
theorem c6_orientation_independence (rs : List PersonYearRecord)
    (hne : rs ≠ [])
    (hyear : ∀ r ∈ rs, isYearPattern r.year = true)
    (hperson : ∀ r ∈ rs, isYearPattern r.person = false) :
    resolveTree (canonicalTree rs) = some rs ∧
    resolveTree (invertedTree rs) = some rs := by
  match rs, hne with
  | r :: rest, _ =>
    have hy := hyear r (List.mem_cons_self r rest)
    have hp := hperson r (List.mem_cons_self r rest)
    constructor
    · have hdet : detectOrientation (canonicalTree (r :: rest)) =
          some Orientation.canonical := by
        simp [canonicalTree, detectOrientation, hy]
      unfold resolveTree
      rw [hdet]
      refine congrArg some ?_
      simp only [canonicalTree, List.map_map]
      show List.map id (r :: rest) = r :: rest
      exact List.map_id _
    · have hdet : detectOrientation (invertedTree (r :: rest)) =
          some Orientation.inverted := by
        simp [invertedTree, detectOrientation, hp, hy]
      unfold resolveTree
      rw [hdet]
      refine congrArg some ?_
      simp only [invertedTree, List.map_map]
      show List.map id (r :: rest) = r :: rest
      exact List.map_id _

theorem c6_orientation_independence_witness :
    resolveTree (canonicalTree [⟨"alice", "2023", Json.null⟩]) =
      some [⟨"alice", "2023", Json.null⟩] ∧
    resolveTree (invertedTree [⟨"alice", "2023", Json.null⟩]) =
      some [⟨"alice", "2023", Json.null⟩] :=
  c6_orientation_independence [⟨"alice", "2023", Json.null⟩]
    (List.cons_ne_nil _ _)
    (by
      intro r hr
      rw [List.mem_singleton] at hr
      subst hr
      decide)
    (by
      intro r hr
      rw [List.mem_singleton] at hr
      subst hr
      decide)

/-- In a keyed list with no duplicate keys, `find?` on a member's key
returns exactly that member. -/
theorem find_key_unique {β : Type} (l : List (String × β))
    (hnd : (l.map Prod.fst).Nodup) (k : String) (v : β) (hx : (k, v) ∈ l) :
    l.find? (fun e => e.1 == k) = some (k, v) := by
  induction l with
  | nil => cases hx
  | cons y t ih =>
    by_cases hb : (y.1 == k) = true
    · rcases List.mem_cons.mp hx with heq | hxt
      · rw [← heq]
        simp [List.find?]
      · exfalso
        have hkey : y.1 = k := eq_of_beq hb
        have hmem : k ∈ t.map Prod.fst := by
          exact List.mem_map_of_mem Prod.fst hxt
        rw [← hkey] at hmem
        exact (List.nodup_cons.mp hnd).1 hmem
    · have hxt : (k, v) ∈ t := by
        rcases List.mem_cons.mp hx with heq | hxt
        · rw [← heq] at hb
          exact absurd (by simp) hb
        · exact hxt
      rw [List.find?_cons_of_neg _ (by simpa using hb)]
      exact ih (List.nodup_cons.mp hnd).2 hxt

/-- `find?` scans the first part of an append first. -/
theorem find_in_first_part {β : Type} (p : β → Bool) (l1 l2 : List β) (x : β)
    (h : l1.find? p = some x) : (l1 ++ l2).find? p = some x := by
  induction l1 with
  | nil => cases h
  | cons y t ih =>
    by_cases hp : p y = true
    · rw [List.find?_cons_of_pos _ hp] at h
      rw [List.cons_append, List.find?_cons_of_pos _ hp]
      exact h
    · rw [List.find?_cons_of_neg _ hp] at h
      rw [List.cons_append, List.find?_cons_of_neg _ hp]
      exact ih h

/-- A forced run processes every unit, appends its results in discovery
order, and records every unit's fingerprint and outcome in `SyncState`. -/
theorem syncRun_force {Content Fp Res : Type} [DecidableEq Fp]
    (fp : Content → Fp) (proc : Content → Res)
    (units : List (String × Content)) (st : SyncState Fp Res) :
    syncRun fp proc true units st =
      (⟨units.length, 0, units.map fun u => (u.1, proc u.2)⟩,
       (units.map fun u => (u.1, fp u.2, proc u.2)).reverse ++ st) := by
  induction units generalizing st with
  | nil => rfl
  | cons u rest ih =>
    obtain ⟨p, c⟩ := u
    cases hl : stLookup st p with
    | some fr =>
      simp only [syncRun, hl, Bool.not_true, Bool.false_and, Bool.false_eq_true,
        if_false, ite_false, ih, List.map_cons, List.length_cons,
        List.reverse_cons, List.append_assoc, List.singleton_append]
    | none =>
      simp only [syncRun, hl, ih, List.map_cons, List.length_cons,
        List.reverse_cons, List.append_assoc, List.singleton_append]

/-- An unforced run over units whose fingerprints all match `SyncState`
skips every unit, reusing the stored outcomes, and leaves the state
untouched. -/
theorem syncRun_skip {Content Fp Res : Type} [DecidableEq Fp]
    (fp : Content → Fp) (proc : Content → Res)
    (units : List (String × Content)) (st : SyncState Fp Res)
    (h : ∀ u ∈ units, stLookup st u.1 = some (fp u.2, proc u.2)) :
    syncRun fp proc false units st =
      (⟨0, units.length, units.map fun u => (u.1, proc u.2)⟩, st) := by
  induction units with
  | nil => rfl
  | cons u rest ih =>
    obtain ⟨p, c⟩ := u
    have hu := h (p, c) (List.mem_cons_self _ _)
    have hrest := fun u hu2 => h u (List.mem_cons_of_mem _ hu2)
    simp only [syncRun, hu, Bool.not_false, Bool.true_and, ih hrest,
      List.map_cons, List.length_cons]
    simp

/-- C7: re-running `sync` on an unchanged source tree with `force=False`
skips every unit — the report counts `processed = 0` and `unchanged = N`
for the N discovered units, the `ScoreResult`s are identical to the prior
run's, and `SyncState` is unchanged; the skip decision is the fingerprint
match against `SyncState`. -/
theorem c7_rerun_unchanged {Content Fp Res : Type} [DecidableEq Fp]
    (fp : Content → Fp) (proc : Content → Res)
    (units : List (String × Content)) (st0 : SyncState Fp Res)
    (hnd : (units.map Prod.fst).Nodup) :
    (syncRun fp proc false units (syncRun fp proc true units st0).2).1.processed = 0 ∧
    (syncRun fp proc false units (syncRun fp proc true units st0).2).1.unchanged =
      units.length ∧
    (syncRun fp proc false units (syncRun fp proc true units st0).2).1.results =
      (syncRun fp proc true units st0).1.results ∧
    (syncRun fp proc false units (syncRun fp proc true units st0).2).2 =
      (syncRun fp proc true units st0).2 := by
  rw [syncRun_force]
  have hlook : ∀ u ∈ units,
      stLookup ((units.map fun u => (u.1, fp u.2, proc u.2)).reverse ++ st0) u.1 =
        some (fp u.2, proc u.2) := by
    intro u hu
    have hmem : (u.1, fp u.2, proc u.2) ∈
        (units.map fun u => (u.1, fp u.2, proc u.2)).reverse := by
      rw [List.mem_reverse]
      exact List.mem_map_of_mem _ hu
    have hnd2 : (((units.map fun u => (u.1, fp u.2, proc u.2)).reverse).map
        Prod.fst).Nodup := by
      rw [List.map_reverse, List.nodup_reverse, List.map_map]
      exact hnd
    have hfind := find_key_unique _ hnd2 u.1 (fp u.2, proc u.2) hmem
    unfold stLookup
    rw [find_in_first_part _ _ _ _ hfind]
    rfl
  rw [syncRun_skip fp proc units _ hlook]
  exact ⟨rfl, rfl, rfl, rfl⟩

theorem c7_rerun_unchanged_witness :
    (syncRun (fun c : ℕ => c) (fun c => c + 1) false [("a", 1), ("b", 2)]
      (syncRun (fun c : ℕ => c) (fun c => c + 1) true [("a", 1), ("b", 2)] []).2).1.processed
      = 0 ∧
    (syncRun (fun c : ℕ => c) (fun c => c + 1) false [("a", 1), ("b", 2)]
      (syncRun (fun c : ℕ => c) (fun c => c + 1) true [("a", 1), ("b", 2)] []).2).1.unchanged
      = [("a", 1), ("b", 2)].length ∧
    (syncRun (fun c : ℕ => c) (fun c => c + 1) false [("a", 1), ("b", 2)]
      (syncRun (fun c : ℕ => c) (fun c => c + 1) true [("a", 1), ("b", 2)] []).2).1.results
      = (syncRun (fun c : ℕ => c) (fun c => c + 1) true [("a", 1), ("b", 2)] []).1.results ∧
    (syncRun (fun c : ℕ => c) (fun c => c + 1) false [("a", 1), ("b", 2)]
      (syncRun (fun c : ℕ => c) (fun c => c + 1) true [("a", 1), ("b", 2)] []).2).2
      = (syncRun (fun c : ℕ => c) (fun c => c + 1) true [("a", 1), ("b", 2)] []).2 :=
  c7_rerun_unchanged (fun c : ℕ => c) (fun c => c + 1) [("a", 1), ("b", 2)] []
    (by decide)

@[simp] theorem map_num_drop1 (qs : List ℚ) :
    (qs.map Json.num).drop 1 = (qs.drop 1).map Json.num := by
  cases qs <;> rfl

/-- One `avaliacoes_grupo` entry whose frequency vectors hold the given
numbers. -/
def avalObj (fc fg : List ℚ) (av : Json) : Json :=
  Json.obj [("frequencia_colaborador", Json.arr (fc.map Json.num)),
            ("frequencia_grupo", Json.arr (fg.map Json.num)),
            ("avaliador", av)]

/-- An evaluation document holding exactly one behaviour evaluation. -/
def evalDoc (fc fg : List ℚ) (av : Json) : Json :=
  Json.obj [("data", Json.obj [("direcionadores", Json.arr [Json.obj
    [("comportamentos", Json.arr [Json.obj
      [("avaliacoes_grupo", Json.arr [avalObj fc fg av])]])]])])]

/-- The rows of a one-element outer loop are the rows of its only step. -/
theorem runLoop_first {α : Type} (step : Json → List α × Option PyErr) (c : Json) :
    (runLoop step [c]).1 = (step c).1 := by
  cases h : (step c).2 <;> simp [runLoop, h]

/-- A one-element inner loop whose step skips produces no rows. -/
theorem runAvals_skip_one {α : Type} (step : Json → Except PyErr (Option α))
    (a : Json) (h : step a = Except.ok none) :
    (runAvals step [a]).1 = ([] : List α) := by
  simp [runAvals, h]

/-- A behaviour evaluation whose collaborator or group vector sums to zero
over positions 1–5 is skipped by the converter's loop body: no row. -/
theorem processAvalC_zero_tail (ws : List ℚ) (person year : String)
    (dir comp : Json) (fc fg : List ℚ) (av : Json)
    (hfc : fc.length = 6) (hfg : fg.length = 6)
    (hzero : (fc.drop 1).sum = 0 ∨ (fg.drop 1).sum = 0) :
    processAvalC ws person year dir comp (avalObj fc fg av) = Except.ok none := by
  have htailC : (List.map Json.num fc).tail = (fc.drop 1).map Json.num := by
    cases fc <;> rfl
  have htailG : (List.map Json.num fg).tail = (fg.drop 1).map Json.num := by
    cases fg <;> rfl
  simp only [processAvalC, avalObj, pyGet, pyLen, pySlice1, pyIter, List.find?,
    String.reduceBEq, beq_self_eq_true, except_bind_ok, except_bind_error,
    except_pure, hfc, hfg, List.length_map, htailC, htailG, pySum_arr_num,
    numsOf_map_num]
  norm_num
  by_cases h1 : fc.sum = 0
  · simp [h1]
  · by_cases h2 : fg.sum = 0
    · simp [h1, h2]
    · simp only [h1, h2, if_false, ite_false]
      intro _ _
      simp only [htailC, htailG, pySum_arr_num, except_bind_ok]
      rw [if_pos hzero]

/-- C5: a `BehaviorEvaluation` whose collaborator or group vector sums to
zero over positions 1–5 (excluding the not-informed slot) contributes no
score row, for every weight table — in particular under the legacy model
(the notebook's corrected converter) and under the NPS model — and, the
converters being pure functions, re-running the pipeline cannot change the
exclusion. -/
theorem c5_zero_tail_sum_excluded (fc fg : List ℚ) (av : Json)
    (hfc : fc.length = 6) (hfg : fg.length = 6)
    (hzero : (fc.drop 1).sum = 0 ∨ (fg.drop 1).sum = 0)
    (person year : String) :
    (∀ ws : List ℚ, convertModel ws (evalDoc fc fg av) person year = []) ∧
    convert_evaluation_to_dataframe_corrected (evalDoc fc fg av) person year = [] ∧
    convertModel NPS_WEIGHTS (evalDoc fc fg av) person year = [] := by
  have hmain : ∀ ws : List ℚ, convertModel ws (evalDoc fc fg av) person year = [] := by
    intro ws
    have hstep := processAvalC_zero_tail ws person year
      (Json.obj [("comportamentos", Json.arr [Json.obj
        [("avaliacoes_grupo", Json.arr [avalObj fc fg av])]])])
      (Json.obj [("avaliacoes_grupo", Json.arr [avalObj fc fg av])])
      fc fg av hfc hfg hzero
    simp only [convertModel, evalDoc, pyGetItem, List.find?, pyIter,
      String.reduceBEq, beq_self_eq_true, except_bind_ok]
    rw [runLoop_first]
    simp only [processDirC, pyGet, List.find?, String.reduceBEq,
      beq_self_eq_true, pyIter, except_bind_ok]
    rw [runLoop_first]
    simp only [processCompC, pyGet, List.find?, String.reduceBEq,
      beq_self_eq_true, pyIter, except_bind_ok]
    rw [runAvals_skip_one _ _ hstep]
  exact ⟨hmain, hmain position_values, hmain NPS_WEIGHTS⟩

theorem c5_zero_tail_sum_excluded_witness :
    (convertModel position_values
      (evalDoc [5, 0, 0, 0, 0, 0] [0, 1, 1, 1, 1, 1] (Json.str "par"))
      "alice" "2023" = []) ∧
    convert_evaluation_to_dataframe_corrected
      (evalDoc [5, 0, 0, 0, 0, 0] [0, 1, 1, 1, 1, 1] (Json.str "par"))
      "alice" "2023" = [] :=
  ⟨(c5_zero_tail_sum_excluded [5, 0, 0, 0, 0, 0] [0, 1, 1, 1, 1, 1]
      (Json.str "par") (by decide) (by decide) (Or.inl (by norm_num))
      "alice" "2023").1 position_values,
   (c5_zero_tail_sum_excluded [5, 0, 0, 0, 0, 0] [0, 1, 1, 1, 1, 1]
      (Json.str "par") (by decide) (by decide) (Or.inl (by norm_num))
      "alice" "2023").2.1⟩

end PeopleAnalytics
